import Mathlib

/-!
# Shallow embedding of the credit / order / referral core of sale-photosession-bot

This file embeds, in Lean 4, the data model and the operations of the bot's
credit core (`app/database/crud.py`, `app/services/payment_checker.py`,
`app/services/webhook_server.py`, `app/handlers/payment.py`,
`app/handlers/user.py`) and proves the testable properties of the
specification against them.

Database rows are Lean structures, a database state is lists of rows, and
each CRUD coroutine becomes a pure function from a state to a result and a
new state.  SQL `UPDATE ... WHERE id = x` becomes a map over the row list;
ORM lookups (`select ... where`) become `List.find?`.  A Python function
that can raise (attribute access on a missing relation) returns `Option`,
with `none` for the raised exception.  Integer balances are `Int`, since the
SQL column is a signed integer and the non-negativity of balances is exactly
what has to be proved, not assumed.
-/

namespace SalePhotoBot

/-- A row of the `users` table, restricted to the columns the credit core
reads or writes (`app/database/crud.py` usage sites). -/
structure User where
  id : Nat
  telegram_id : Nat
  images_remaining : Int
  referred_by_id : Option Nat
  total_referrals : Nat
  referral_code : Option String
  deriving Repr, DecidableEq

/-- A row of the `packages` table (credit amount only; price and flags are
not read by the core operations). -/
structure Package where
  id : Nat
  photoshoots_count : Nat
  deriving Repr, DecidableEq

/-- Order status strings used in `crud.py`: "pending", "paid", "cancelled",
"refunded", "failed". -/
inductive OrderStatus where
  | pending
  | paid
  | cancelled
  | refunded
  | failed
  deriving Repr, DecidableEq

/-- A row of the `orders` table. `paid_at` is an abstract timestamp,
`none` until set. -/
structure Order where
  id : Nat
  user_id : Nat
  package_id : Nat
  invoice_id : String
  amount : Nat
  status : OrderStatus
  paid_at : Option Nat
  deriving Repr, DecidableEq

/-- A row of the `referral_rewards` table (`add_referral_reward` in
`crud.py`). -/
structure ReferralReward where
  user_id : Nat
  referred_user_id : Nat
  order_id : Option Nat
  reward_type : String
  images_rewarded : Nat
  deriving Repr, DecidableEq

/-- The database state visible to the credit core. -/
structure Db where
  users : List User
  packages : List Package
  orders : List Order
  rewards : List ReferralReward
  deriving Repr, DecidableEq

/-! ## Lookup and update helpers (ORM `select` / `update`) -/

/-- `select(User).where(User.id == uid)`, first row. -/
def getUserById (db : Db) (uid : Nat) : Option User :=
  db.users.find? (fun u => u.id = uid)

/-- `select(User).where(User.telegram_id == tid)`, first row. -/
def getUserByTid (db : Db) (tid : Nat) : Option User :=
  db.users.find? (fun u => u.telegram_id = tid)

/-- `select(Package).where(Package.id == pid)`, first row. -/
def getPackageById (db : Db) (pid : Nat) : Option Package :=
  db.packages.find? (fun p => p.id = pid)

/-- `crud.get_order_by_invoice_id`. -/
def get_order_by_invoice_id (db : Db) (invoice : String) : Option Order :=
  db.orders.find? (fun o => o.invoice_id = invoice)

/-- `crud.get_order_by_id` (relation loading has no state effect). -/
def get_order_by_id (db : Db) (oid : Nat) : Option Order :=
  db.orders.find? (fun o => o.id = oid)

/-- `UPDATE users SET ... WHERE id = uid`, applied as a row transformer. -/
def updateUserById (db : Db) (uid : Nat) (f : User → User) : Db :=
  { db with users := db.users.map (fun u => if u.id = uid then f u else u) }

/-- Mutation of the ORM `User` object fetched by telegram id, then commit. -/
def updateUserByTid (db : Db) (tid : Nat) (f : User → User) : Db :=
  { db with users := db.users.map (fun u => if u.telegram_id = tid then f u else u) }

/-- Mutation of the ORM `Order` object fetched by invoice id, then commit. -/
def updateOrderByInvoice (db : Db) (invoice : String) (f : Order → Order) : Db :=
  { db with orders := db.orders.map (fun o => if o.invoice_id = invoice then f o else o) }

/-- Mutation of the ORM `Order` object fetched by primary key, then commit. -/
def updateOrderById (db : Db) (oid : Nat) (f : Order → Order) : Db :=
  { db with orders := db.orders.map (fun o => if o.id = oid then f o else o) }

/-! ## Balance primitives (`crud.py`) -/

/-- `crud.update_user_images_count`: unconditional
`UPDATE users SET images_remaining = images_remaining + delta WHERE id = uid`.
This is the spec's `grant` when `delta ≥ 1`. -/
def update_user_images_count (db : Db) (uid : Nat) (delta : Int) : Db :=
  updateUserById db uid (fun u => { u with images_remaining := u.images_remaining + delta })

/-- Balance-level core of `crud.check_and_reserve_balance`: the branch on the
fetched row.  Returns the `(success, is_free)` pair and the new balance. -/
def reserve_bal (bal : Int) : (Bool × Bool) × Int :=
  if bal ≤ 0 then ((false, false), bal) else ((true, false), bal - 1)

/-- `crud.check_and_reserve_balance`: row lock + fetch by telegram id; if the
user is absent or `images_remaining <= 0`, return `(False, False)` with no
mutation; otherwise decrement by 1 and return `(True, False)`. -/
def check_and_reserve_balance (db : Db) (tid : Nat) : (Bool × Bool) × Db :=
  match getUserByTid db tid with
  | none => ((false, false), db)
  | some u =>
      if u.images_remaining ≤ 0 then ((false, false), db)
      else ((true, false),
        updateUserByTid db tid (fun v => { v with images_remaining := v.images_remaining - 1 }))

/-- `crud.rollback_balance`: if the user exists, increment by 1. -/
def rollback_balance (db : Db) (tid : Nat) : Db :=
  match getUserByTid db tid with
  | none => db
  | some _ =>
      updateUserByTid db tid (fun v => { v with images_remaining := v.images_remaining + 1 })

/-- The clamped deduction inlined in `crud.refund_order` (lines 423-427):
subtract `amount` if the balance covers it, otherwise set the balance to 0. -/
def deduct_clamped (bal : Int) (amount : Int) : Int :=
  if bal ≥ amount then bal - amount else 0

/-! ## Referral primitives (`crud.py`) -/

/-- `crud.add_referral_reward`: add `images_rewarded` to the rewarded user's
balance and append one `ReferralReward` row. -/
def add_referral_reward (db : Db) (uid referred_uid : Nat) (rtype : String)
    (images_rewarded : Nat) (oid : Option Nat) : Db :=
  let db1 := update_user_images_count db uid images_rewarded
  { db1 with rewards := db1.rewards ++
      [{ user_id := uid, referred_user_id := referred_uid, order_id := oid,
         reward_type := rtype, images_rewarded := images_rewarded }] }

/-- `crud.set_user_referrer`: fetch the user by primary key (`session.get`;
a missing row raises on the attribute access, modelled as `none`); if the
referrer link is unset and the ids differ, set the link, bump the referrer's
`total_referrals` and return `True`; otherwise return `False` unchanged. -/
def set_user_referrer (db : Db) (uid rid : Nat) : Option (Bool × Db) :=
  match getUserById db uid with
  | none => none
  | some u =>
      if u.referred_by_id = none ∧ uid ≠ rid then
        let db1 := updateUserById db uid (fun v => { v with referred_by_id := some rid })
        let db2 := updateUserById db1 rid
          (fun v => { v with total_referrals := v.total_referrals + 1 })
        some (true, db2)
      else some (false, db)

/-! ## Order operations (`crud.py`) -/

/-- State written by the success branch of `crud.mark_order_paid` (lines
315-356), given the fetched order and its `user`/`package` relations: set
the status and `paid_at`, add the package's credit amount to the order's
user, and — when the user has a referrer — add the percentage reward
through `add_referral_reward` when it is positive.  Python's
`int(count * percent / 100)` truncates the non-negative quotient, i.e.
takes the floor, which is `Nat` division here.  The Yandex Metrika tracking
call touches no row of this state. -/
def mark_order_paid_apply (percent now : Nat) (db : Db) (invoice : String)
    (o : Order) (u : User) (p : Package) : Db :=
  let db1 := updateOrderByInvoice db invoice
    (fun v => { v with status := OrderStatus.paid, paid_at := some now })
  let db2 := updateUserById db1 u.id
    (fun v => { v with images_remaining := v.images_remaining + p.photoshoots_count })
  match u.referred_by_id with
  | some rid =>
      let reward := p.photoshoots_count * percent / 100
      if reward > 0 then
        add_referral_reward db2 rid u.id "referral_purchase" reward (some o.id)
      else db2
  | none => db2

/-- `crud.mark_order_paid`, the Reconciliation Engine.  `percent` is
`settings.REFERRAL_REWARD_PURCHASE_PERCENT` and `now` the commit timestamp.
If the order is absent or already `paid`, returns `None` (inner `none`)
with the state unchanged; a missing `user` or `package` relation raises
inside the session (outer `none`); otherwise the success branch applies
`mark_order_paid_apply` and returns the updated order. -/
def mark_order_paid (percent now : Nat) (db : Db) (invoice : String) :
    Option (Option Order × Db) :=
  match get_order_by_invoice_id db invoice with
  | none => some (none, db)
  | some o =>
      if o.status = OrderStatus.paid then some (none, db)
      else
        match getUserById db o.user_id, getPackageById db o.package_id with
        | some u, some p =>
            some (some { o with status := OrderStatus.paid, paid_at := some now },
              mark_order_paid_apply percent now db invoice o u p)
        | _, _ => none

/-- `crud.cancel_order`: `None` when the order is absent or paid; every
other order is set to `cancelled`.  The `admin_id` argument is unused by the
source body. -/
def cancel_order (db : Db) (oid : Nat) (admin_id : Nat) : Option Order × Db :=
  match get_order_by_id db oid with
  | none => (none, db)
  | some o =>
      if o.status = OrderStatus.paid then (none, db)
      else
        (some { o with status := OrderStatus.cancelled },
         updateOrderById db oid (fun v => { v with status := OrderStatus.cancelled }))

/-- `crud.refund_order`: `None` when the order is absent or not paid;
otherwise deduct the package's credit amount clamped at 0 and set the order
to `refunded`.  A missing `user`/`package` relation raises (outer `none`). -/
def refund_order (db : Db) (oid : Nat) (admin_id : Nat) :
    Option (Option Order × Db) :=
  match get_order_by_id db oid with
  | none => some (none, db)
  | some o =>
      if o.status ≠ OrderStatus.paid then some (none, db)
      else
        match getUserById db o.user_id, getPackageById db o.package_id with
        | some u, some p =>
            let db1 := updateUserById db u.id (fun v =>
              { v with images_remaining := deduct_clamped v.images_remaining p.photoshoots_count })
            let db2 := updateOrderById db1 oid
              (fun v => { v with status := OrderStatus.refunded })
            some (some { o with status := OrderStatus.refunded }, db2)
        | _, _ => none

/-! ## Payment checker (`app/services/payment_checker.py`) -/

/-- The payment-info dictionary returned by
`YookassaService.get_payment_status` / `verify_webhook_notification`,
restricted to the keys the core reads. -/
structure PaymentInfo where
  payment_id : String
  status : String
  paid : Bool
  deriving Repr, DecidableEq

/-- State effect of `PaymentChecker.process_successful_payment`: mark the
order paid; `False` when the order is absent or already paid (duplicate); all
notification sending is external and caught in `try/except`. -/
def process_successful_payment (percent now : Nat) (db : Db) (payment_id : String) :
    Option (Bool × Db) :=
  match mark_order_paid percent now db payment_id with
  | none => none
  | some (none, db1) => some (false, db1)
  | some (some o, db1) =>
      match get_order_by_id db1 o.id with
      | none => some (false, db1)
      | some _ => some (true, db1)

/-- Outcome of one run of `PaymentChecker.auto_check_payment`: the returned
status sentinel (`some "succeeded"`, `some "canceled"`, or `none` on
timeout), the database state when the task stops, and the elapsed seconds at
which each gateway check was made. -/
structure PollRun where
  result : Option String
  db : Db
  checkTimes : List Nat
  deriving Repr, DecidableEq

/-- The steady-state `while` loop of `auto_check_payment` (lines 204-219):
while the elapsed wall clock is below the budget, sleep 30 s and query the
gateway; a failed query (`None`) continues; `succeeded ∧ paid` processes the
payment and returns; `canceled` returns; otherwise loop.  `responses k` is
the result of the k-th gateway call of the whole task. -/
def auto_check_loop (percent now : Nat) (payment_id : String)
    (responses : Nat → Option PaymentInfo) (budget : Nat) (db : Db)
    (k elapsed : Nat) (times : List Nat) : Option PollRun :=
  if h : elapsed < budget then
    let elapsed2 := elapsed + 30
    let times2 := times ++ [elapsed2]
    match responses k with
    | none => auto_check_loop percent now payment_id responses budget db (k + 1) elapsed2 times2
    | some info =>
        if info.status = "succeeded" ∧ info.paid then
          match process_successful_payment percent now db payment_id with
          | none => none
          | some (_, db1) => some ⟨some "succeeded", db1, times2⟩
        else if info.status = "canceled" then some ⟨some "canceled", db, times2⟩
        else auto_check_loop percent now payment_id responses budget db (k + 1) elapsed2 times2
  else some ⟨none, db, times⟩
termination_by budget - elapsed
decreasing_by simp_wf; omega

/-- The initial `for interval in check_intervals` phase of
`auto_check_payment` (lines 179-201): sleep each of the listed delays, abort
with `None` when the budget is strictly exceeded, otherwise query and branch
as in the loop; afterwards fall through to `auto_check_loop`. -/
def auto_check_go (percent now : Nat) (payment_id : String)
    (responses : Nat → Option PaymentInfo) (budget : Nat) (db : Db) :
    List Nat → Nat → Nat → List Nat → Option PollRun
  | [], k, elapsed, times =>
      auto_check_loop percent now payment_id responses budget db k elapsed times
  | d :: rest, k, elapsed, times =>
      let elapsed2 := elapsed + d
      if budget < elapsed2 then some ⟨none, db, times⟩
      else
        let times2 := times ++ [elapsed2]
        match responses k with
        | none => auto_check_go percent now payment_id responses budget db rest (k + 1) elapsed2 times2
        | some info =>
            if info.status = "succeeded" ∧ info.paid then
              match process_successful_payment percent now db payment_id with
              | none => none
              | some (_, db1) => some ⟨some "succeeded", db1, times2⟩
            else if info.status = "canceled" then some ⟨some "canceled", db, times2⟩
            else auto_check_go percent now payment_id responses budget db rest (k + 1) elapsed2 times2

/-- `PaymentChecker.auto_check_payment`: first the fixed delays 60 s, 30 s,
60 s, then every 30 s, within a wall-clock budget of
`max_duration_minutes * 60` seconds (default argument 10 in the source). -/
def auto_check_payment (percent now : Nat) (db : Db) (payment_id : String)
    (responses : Nat → Option PaymentInfo) (max_duration_minutes : Nat) : Option PollRun :=
  auto_check_go percent now payment_id responses (max_duration_minutes * 60) db
    [60, 30, 60] 0 0 []

/-! ## Webhook endpoint (`app/services/webhook_server.py`,
`app/handlers/payment.py`) -/

/-- `handlers.payment.process_payment_webhook`, with the
`verify_webhook_notification` result of the gateway SDK as input (`none` for
an invalid notification): invalid or non-successful notifications return
`False`; otherwise the order is marked paid; a duplicate or unknown order
returns `False`. -/
def process_payment_webhook (percent now : Nat) (db : Db)
    (parsed : Option PaymentInfo) : Option (Bool × Db) :=
  match parsed with
  | none => some (false, db)
  | some info =>
      if info.status ≠ "succeeded" ∨ info.paid = false then some (false, db)
      else
        match mark_order_paid percent now db info.payment_id with
        | none => none
        | some (none, db1) => some (false, db1)
        | some (some _, db1) => some (true, db1)

/-- What the webhook server receives: a request whose body fails to parse as
JSON (`request.json()` raises), or a parsed body whose gateway verification
yields `parsed`. -/
inductive WebhookRequest where
  | badJson
  | body (parsed : Option PaymentInfo)
  deriving Repr, DecidableEq

/-- `webhook_server.handle_yookassa_webhook`: the HTTP status returned to
the gateway and the resulting state.  Both the `success` and the `not
success` branch answer 200, and the surrounding `try/except` answers 200 on
any exception (the session context manager having rolled back). -/
def handle_yookassa_webhook (percent now : Nat) (db : Db) (req : WebhookRequest) :
    Nat × Db :=
  match req with
  | WebhookRequest.badJson => (200, db)
  | WebhookRequest.body parsed =>
      match process_payment_webhook percent now db parsed with
      | none => (200, db)
      | some (true, db1) => (200, db1)
      | some (false, db1) => (200, db1)

/-! ## `/start` referral block (`app/handlers/user.py` lines 108-137) -/

/-- The referral block of `handlers.user.cmd_start`: given the started
`user` row and the deep-link `referral_code`, if a code is present, the user
has no referrer yet and the code is not the user's own telegram id, look the
referrer up by referral code, falling back to telegram id for an all-digit
code; on a hit, link the user to the referrer, increment the referrer's
`total_referrals` and add `settings.REFERRAL_REWARD_START` to the referrer's
balance.  The congratulation message is external.  No `ReferralReward` row
is written by this block. -/
def cmd_start_referral (reward_start : Nat) (db : Db) (user : User)
    (referral_code : Option String) : Db :=
  match referral_code with
  | none => db
  | some code =>
      if user.referred_by_id = none ∧ toString user.telegram_id ≠ code then
        let byCode := db.users.find? (fun v => v.referral_code = some code)
        let referrer :=
          match byCode with
          | some r => some r
          | none =>
              db.users.find? (fun v =>
                v.telegram_id = (match code.toNat? with | some n => n | none => 0))
        match referrer with
        | none => db
        | some r =>
            let db1 := updateUserById db user.id
              (fun v => { v with referred_by_id := some r.id })
            updateUserById db1 r.id (fun v =>
              { v with total_referrals := v.total_referrals + 1, images_remaining := v.images_remaining + reward_start })
      else db

/-! ## Derived notions used by the stated properties -/

/-- One credit-affecting operation of the Reservation Guard, as the spec's
property quantifies over sequences of them: `reserve` and `rollback` are
`check_and_reserve_balance` / `rollback_balance`; `grant` is
`update_user_images_count` with a non-negative amount (the spec's
`grant(user, amount ≥ 1)`). -/
inductive BalanceOp where
  | reserve (tid : Nat)
  | rollback (tid : Nat)
  | grant (uid : Nat) (amount : Nat)
  deriving Repr, DecidableEq

/-- Apply one Reservation Guard operation to the state. -/
def applyBalanceOp (db : Db) : BalanceOp → Db
  | BalanceOp.reserve tid => (check_and_reserve_balance db tid).2
  | BalanceOp.rollback tid => rollback_balance db tid
  | BalanceOp.grant uid amount => update_user_images_count db uid (amount : Int)

/-- Apply a sequence of Reservation Guard operations, left to right. -/
def applyBalanceOps (db : Db) (ops : List BalanceOp) : Db :=
  ops.foldl applyBalanceOp db

/-- All balances in the state are non-negative. -/
def NonnegBalances (db : Db) : Prop :=
  ∀ u ∈ db.users, 0 ≤ u.images_remaining

/-- The `users.telegram_id` unique constraint of the schema. -/
def DistinctTids (db : Db) : Prop :=
  db.users.Pairwise (fun a b => a.telegram_id ≠ b.telegram_id)

/-- Iterated successful reservation at the balance level: `consumeN bal n`
is the balance after `n` reservations through `reserve_bal`, or `none` if
one of them was refused. -/
def consumeN : Int → Nat → Option Int
  | bal, 0 => some bal
  | bal, n + 1 =>
      let r := reserve_bal bal
      if r.1.1 then consumeN r.2 n else none

/-- Whether a gateway response is terminal for `auto_check_payment`:
a paid success or a cancellation. -/
def isTerminal (r : Option PaymentInfo) : Bool :=
  match r with
  | none => false
  | some i => (i.status == "succeeded" && i.paid) || i.status == "canceled"

/-- The check times the steady-state 30-second loop produces from a given
elapsed time until the budget: the recursion mirrors `auto_check_loop`. -/
def loopSchedule (budget elapsed : Nat) : List Nat :=
  if h : elapsed < budget then (elapsed + 30) :: loopSchedule budget (elapsed + 30)
  else []
termination_by budget - elapsed
decreasing_by simp_wf; omega

/-- The full check schedule of a 10-minute `auto_check_payment` run:
60 s, then +30 s, then +60 s, then every 30 s up to the 600 s budget. -/
def defaultSchedule : List Nat :=
  [60, 90, 150, 180, 210, 240, 270, 300, 330, 360, 390, 420, 450, 480, 510, 540, 570, 600]

/-! ## Concrete sample states for witnesses and counterexamples -/

/-- A package granting 10 credits (the spec's Scenario B/C/D package). -/
def pkg10 : Package := { id := 1, photoshoots_count := 10 }

/-- A buyer with no referrer link yet. -/
def buyer : User :=
  { id := 1, telegram_id := 11, images_remaining := 0,
    referred_by_id := some 2, total_referrals := 0, referral_code := none }

/-- The buyer's referrer. -/
def referrer : User :=
  { id := 2, telegram_id := 22, images_remaining := 0,
    total_referrals := 1, referred_by_id := none, referral_code := some "ABC123" }

/-- A pending 10-credit order of `buyer` with invoice "inv-1". -/
def pendingOrder : Order :=
  { id := 7, user_id := 1, package_id := 1, invoice_id := "inv-1",
    amount := 990, status := OrderStatus.pending, paid_at := none }

/-- State before reconciliation: the referred `buyer`, their `referrer`,
one pending order. -/
def dbPending : Db :=
  { users := [buyer, referrer], packages := [pkg10],
    orders := [pendingOrder], rewards := [] }

/-- A paid 10-credit order whose buyer has spent down to balance 4
(the spec's Scenario D). -/
def paidOrder : Order :=
  { id := 8, user_id := 3, package_id := 1, invoice_id := "inv-2",
    amount := 990, status := OrderStatus.paid, paid_at := some 1 }

/-- The Scenario D buyer with balance 4. -/
def spender : User :=
  { id := 3, telegram_id := 33, images_remaining := 4,
    referred_by_id := none, total_referrals := 0, referral_code := none }

/-- State for the refund scenario. -/
def dbRefund : Db :=
  { users := [spender], packages := [pkg10], orders := [paidOrder], rewards := [] }

/-- An order already refunded. -/
def refundedOrder : Order :=
  { id := 9, user_id := 3, package_id := 1, invoice_id := "inv-3",
    amount := 990, status := OrderStatus.refunded, paid_at := some 1 }

/-- State holding only the refunded order. -/
def dbRefunded : Db :=
  { users := [spender], packages := [pkg10], orders := [refundedOrder], rewards := [] }

/-- A user who has just sent `/start` through a referral deep link and has
no referrer yet. -/
def starter : User :=
  { id := 5, telegram_id := 200, images_remaining := 2,
    referred_by_id := none, total_referrals := 0, referral_code := none }

/-- State for the `/start` referral block: the code owner `referrer` and the
fresh `starter`. -/
def dbStart : Db :=
  { users := [referrer, starter], packages := [], orders := [], rewards := [] }

/-! ## Helper lemmas: keyed lookups through keyed updates -/

/-- `find?` by key through a map that rewrites the rows matching another
key value without changing any key. -/
theorem find?_map_keyed {α κ : Type} [DecidableEq κ] (key : α → κ) (f : α → α)
    (hf : ∀ a, key (f a) = key a) (i j : κ) :
    ∀ l : List α,
      (l.map (fun a => if key a = i then f a else a)).find? (fun a => key a = j) =
        (l.find? (fun a => key a = j)).map (fun a => if key a = i then f a else a) := by
  intro l
  induction l with
  | nil => rfl
  | cons a t ih =>
      have hkey : key (if key a = i then f a else a) = key a := by
        by_cases h : key a = i <;> simp [h, hf]
      by_cases haj : key a = j
      · rw [List.map_cons,
          List.find?_cons_of_pos _ (by simpa [hkey] using haj),
          List.find?_cons_of_pos _ (by simpa using haj)]
        simp
      · rw [List.map_cons,
          List.find?_cons_of_neg _ (by simpa [hkey] using haj),
          List.find?_cons_of_neg _ (by simpa using haj), ih]

/-- A row found by key has that key value. -/
theorem key_of_find? {α κ : Type} [DecidableEq κ] (key : α → κ) (j : κ)
    (l : List α) (a : α) (h : l.find? (fun x => key x = j) = some a) : key a = j := by
  have := List.find?_some h
  simpa using this

/-- If keys are pairwise distinct, any member with the searched key is the
found row. -/
theorem find?_unique_mem {α κ : Type} [DecidableEq κ] (key : α → κ) (j : κ) :
    ∀ l : List α, l.Pairwise (fun a b => key a ≠ key b) →
      ∀ u, l.find? (fun x => key x = j) = some u →
        ∀ v ∈ l, key v = j → v = u := by
  intro l
  induction l with
  | nil => intro _ u hu; simp [List.find?] at hu
  | cons a t ih =>
      intro hp u hu v hv hvj
      rcases List.pairwise_cons.mp hp with ⟨ha, ht⟩
      by_cases haj : key a = j
      · have hpos : (fun x => decide (key x = j)) a = true := by simpa using haj
        have hu2 : a = u := by
          rw [List.find?_cons_of_pos t hpos] at hu
          exact Option.some_injective _ hu
        rcases List.mem_cons.mp hv with h1 | h1
        · exact h1.trans hu2
        · exact absurd (haj.trans hvj.symm) (ha v h1)
      · have hneg : ¬ (fun x => decide (key x = j)) a = true := by simpa using haj
        have hu2 : t.find? (fun x => decide (key x = j)) = some u := by
          rw [List.find?_cons_of_neg t hneg] at hu
          exact hu
        rcases List.mem_cons.mp hv with h1 | h1
        · exact absurd (h1 ▸ hvj) haj
        · exact ih ht u hu2 v h1 hvj

/-- `getUserById` through `updateUserById`, when the update preserves ids. -/
theorem getUserById_update (db : Db) (i j : Nat) (f : User → User)
    (hf : ∀ u, (f u).id = u.id) :
    getUserById (updateUserById db i f) j =
      (getUserById db j).map (fun u => if u.id = i then f u else u) := by
  simpa [getUserById, updateUserById] using
    find?_map_keyed User.id f hf i j db.users

/-- `getUserByTid` through `updateUserByTid`, when the update preserves
telegram ids. -/
theorem getUserByTid_update (db : Db) (i j : Nat) (f : User → User)
    (hf : ∀ u, (f u).telegram_id = u.telegram_id) :
    getUserByTid (updateUserByTid db i f) j =
      (getUserByTid db j).map (fun u => if u.telegram_id = i then f u else u) := by
  simpa [getUserByTid, updateUserByTid] using
    find?_map_keyed User.telegram_id f hf i j db.users

/-- `get_order_by_invoice_id` through `updateOrderByInvoice`, when the
update preserves invoice ids. -/
theorem getOrderByInvoice_update (db : Db) (i j : String) (f : Order → Order)
    (hf : ∀ o, (f o).invoice_id = o.invoice_id) :
    get_order_by_invoice_id (updateOrderByInvoice db i f) j =
      (get_order_by_invoice_id db j).map (fun o => if o.invoice_id = i then f o else o) := by
  simpa [get_order_by_invoice_id, updateOrderByInvoice] using
    find?_map_keyed Order.invoice_id f hf i j db.orders

/-- `get_order_by_id` through `updateOrderById`, when the update preserves
primary keys. -/
theorem getOrderById_update (db : Db) (i j : Nat) (f : Order → Order)
    (hf : ∀ o, (f o).id = o.id) :
    get_order_by_id (updateOrderById db i f) j =
      (get_order_by_id db j).map (fun o => if o.id = i then f o else o) := by
  simpa [get_order_by_id, updateOrderById] using
    find?_map_keyed Order.id f hf i j db.orders

/-! ## Claims -/

/-- C8: the webhook endpoint (`handle_yookassa_webhook`) answers HTTP 200
to the gateway for every received notification — invalid payloads, unknown
or already-paid orders, and internal exceptions included. -/
theorem c8_webhook_always_200 :
    ∀ percent now db req, (handle_yookassa_webhook percent now db req).1 = 200 := by
  intro percent now db req
  cases req with
  | badJson => rfl
  | body parsed =>
      cases hp : process_payment_webhook percent now db parsed with
      | none => simp [handle_yookassa_webhook, hp]
      | some r =>
          rcases r with ⟨b, db1⟩
          cases b <;> simp [handle_yookassa_webhook, hp]

/-- C5 counterexample: `cancel_order` does leave the `refunded` state — on
a concrete state holding only an already-refunded order, it returns the
order transitioned to `cancelled` instead of rejecting it, refuting
"cancel only from pending; no transition leaves refunded". -/
theorem c5_counterexample :
    get_order_by_id dbRefunded 9 = some refundedOrder ∧
    refundedOrder.status = OrderStatus.refunded ∧
    (cancel_order dbRefunded 9 0).1 =
      some { refundedOrder with status := OrderStatus.cancelled } ∧
    (cancel_order dbRefunded 9 0).2 ≠ dbRefunded := by
  refine ⟨rfl, rfl, rfl, ?_⟩
  decide

/-- C5 (amended): `cancel_order` rejects an order only when it is `paid`
(or absent); every other order — `pending`, but also `cancelled`,
`refunded` and `failed` — is transitioned to `cancelled`. -/
theorem c5_cancel_state_machine :
    (∀ db oid a, get_order_by_id db oid = none → cancel_order db oid a = (none, db)) ∧
    (∀ db oid a o, get_order_by_id db oid = some o → o.status = OrderStatus.paid →
        cancel_order db oid a = (none, db)) ∧
    (∀ db oid a o, get_order_by_id db oid = some o → o.status ≠ OrderStatus.paid →
        (cancel_order db oid a).1 = some { o with status := OrderStatus.cancelled } ∧
        get_order_by_id (cancel_order db oid a).2 oid =
          some { o with status := OrderStatus.cancelled }) := by
  refine ⟨?_, ?_, ?_⟩
  · intro db oid a h
    simp [cancel_order, h]
  · intro db oid a o h hst
    simp [cancel_order, h, hst]
  · intro db oid a o h hst
    have hid : o.id = oid :=
      key_of_find? Order.id oid db.orders o (by simpa [get_order_by_id] using h)
    constructor
    · simp [cancel_order, h, hst]
    · rw [show (cancel_order db oid a).2 =
          updateOrderById db oid (fun v => { v with status := OrderStatus.cancelled }) from by
            simp [cancel_order, h, hst]]
      rw [getOrderById_update db oid oid
        (fun v => { v with status := OrderStatus.cancelled }) (fun _ => rfl), h]
      simp [hid]

/-- C5 witness: the amended theorem applied to the concrete refunded-order
state. -/
theorem c5_cancel_state_machine_witness :
    (cancel_order dbRefunded 9 0).1 =
      some { refundedOrder with status := OrderStatus.cancelled } ∧
    get_order_by_id (cancel_order dbRefunded 9 0).2 9 =
      some { refundedOrder with status := OrderStatus.cancelled } :=
  c5_cancel_state_machine.2.2 dbRefunded 9 0 refundedOrder (by rfl) (by decide)

/-- C10: `set_user_referrer` rejects self-referral and re-linking with
`False` and no state change, and on success links the user and increments
the referrer's `total_referrals` by exactly 1. -/
theorem c10_set_user_referrer :
    (∀ db uid rid u, getUserById db uid = some u → u.referred_by_id ≠ none →
        set_user_referrer db uid rid = some (false, db)) ∧
    (∀ db uid u, getUserById db uid = some u →
        set_user_referrer db uid uid = some (false, db)) ∧
    (∀ db uid rid u r, getUserById db uid = some u → u.referred_by_id = none →
        uid ≠ rid → getUserById db rid = some r →
        ∃ db1, set_user_referrer db uid rid = some (true, db1) ∧
          getUserById db1 uid = some { u with referred_by_id := some rid } ∧
          getUserById db1 rid = some { r with total_referrals := r.total_referrals + 1 }) := by
  refine ⟨?_, ?_, ?_⟩
  · intro db uid rid u h hlink
    simp [set_user_referrer, h, hlink]
  · intro db uid u h
    simp [set_user_referrer, h]
  · intro db uid rid u r h hlink hne hr
    have hu_id : u.id = uid :=
      key_of_find? User.id uid db.users u (by simpa [getUserById] using h)
    have hr_id : r.id = rid :=
      key_of_find? User.id rid db.users r (by simpa [getUserById] using hr)
    refine ⟨updateUserById
        (updateUserById db uid fun v => { v with referred_by_id := some rid }) rid
        (fun v => { v with total_referrals := v.total_referrals + 1 }),
      by simp [set_user_referrer, h, hlink, hne], ?_, ?_⟩
    · rw [getUserById_update _ rid uid
          (fun v => { v with total_referrals := v.total_referrals + 1 }) (fun _ => rfl),
        getUserById_update _ uid uid
          (fun v => { v with referred_by_id := some rid }) (fun _ => rfl), h]
      simp [hu_id, hne]
    · rw [getUserById_update _ rid rid
          (fun v => { v with total_referrals := v.total_referrals + 1 }) (fun _ => rfl),
        getUserById_update _ uid rid
          (fun v => { v with referred_by_id := some rid }) (fun _ => rfl), hr]
      simp [hr_id, hne, Ne.symm hne]

/-- C10 witness: the success branch on the concrete `/start` state, linking
`starter` to `referrer`. -/
theorem c10_set_user_referrer_witness :
    ∃ db1, set_user_referrer dbStart 5 2 = some (true, db1) ∧
      getUserById db1 5 = some { starter with referred_by_id := some 2 } ∧
      getUserById db1 2 = some { referrer with total_referrals := 2 } :=
  c10_set_user_referrer.2.2 dbStart 5 2 starter referrer (by rfl) (by rfl)
    (by decide) (by rfl)

/-- C4: `refund_order` succeeds only from `paid`: otherwise it returns
`None` with no change; from `paid` it deducts the package's credit amount
clamped at 0 (the clamped result is never negative and equals
`max 0 (balance − amount)`) and sets the status to `refunded`. -/
theorem c4_refund_only_paid :
    (∀ db oid a, get_order_by_id db oid = none → refund_order db oid a = some (none, db)) ∧
    (∀ db oid a o, get_order_by_id db oid = some o → o.status ≠ OrderStatus.paid →
        refund_order db oid a = some (none, db)) ∧
    (∀ bal amt : Int, deduct_clamped bal amt = max 0 (bal - amt) ∧
        0 ≤ deduct_clamped bal amt) ∧
    (∀ db oid a o u p, get_order_by_id db oid = some o → o.status = OrderStatus.paid →
        getUserById db o.user_id = some u → getPackageById db o.package_id = some p →
        ∃ db1, refund_order db oid a = some (some { o with status := OrderStatus.refunded }, db1) ∧
          getUserById db1 o.user_id =
            some { u with images_remaining := deduct_clamped u.images_remaining p.photoshoots_count } ∧
          get_order_by_id db1 oid = some { o with status := OrderStatus.refunded }) := by
  refine ⟨?_, ?_, ?_, ?_⟩
  · intro db oid a h
    simp [refund_order, h]
  · intro db oid a o h hst
    simp [refund_order, h, hst]
  · intro bal amt
    constructor
    · rw [max_def, deduct_clamped]
      split <;> split <;> omega
    · rw [deduct_clamped]
      split <;> omega
  · intro db oid a o u p h hst hu hp
    have hu_id : u.id = o.user_id :=
      key_of_find? User.id o.user_id db.users u (by simpa [getUserById] using hu)
    refine ⟨updateOrderById
        (updateUserById db u.id fun v =>
          { v with images_remaining := deduct_clamped v.images_remaining p.photoshoots_count })
        oid (fun v => { v with status := OrderStatus.refunded }),
      by simp [refund_order, h, hst, hu, hp], ?_, ?_⟩
    · have horders : getUserById (updateOrderById
          (updateUserById db u.id fun v =>
            { v with images_remaining := deduct_clamped v.images_remaining p.photoshoots_count })
          oid (fun v => { v with status := OrderStatus.refunded })) o.user_id =
          getUserById (updateUserById db u.id fun v =>
            { v with images_remaining := deduct_clamped v.images_remaining p.photoshoots_count })
            o.user_id := rfl
      rw [horders,
        getUserById_update _ u.id o.user_id
          (fun v =>
            { v with images_remaining := deduct_clamped v.images_remaining p.photoshoots_count })
          (fun _ => rfl), hu]
      simp [hu_id]
    · have husers : get_order_by_id (updateOrderById
          (updateUserById db u.id fun v =>
            { v with images_remaining := deduct_clamped v.images_remaining p.photoshoots_count })
          oid (fun v => { v with status := OrderStatus.refunded })) oid =
          get_order_by_id (updateOrderById db
            oid (fun v => { v with status := OrderStatus.refunded })) oid := rfl
      have hid : o.id = oid :=
        key_of_find? Order.id oid db.orders o (by simpa [get_order_by_id] using h)
      rw [husers,
        getOrderById_update db oid oid
          (fun v => { v with status := OrderStatus.refunded }) (fun _ => rfl), h]
      simp [hid]

/-- C4 witness: Scenario D — refunding a paid 10-credit order with the
buyer's balance at 4 floors the balance at 0 and marks the order
refunded. -/
theorem c4_refund_only_paid_witness :
    ∃ db1, refund_order dbRefund 8 0 =
        some (some { paidOrder with status := OrderStatus.refunded }, db1) ∧
      getUserById db1 3 = some { spender with images_remaining := 0 } ∧
      get_order_by_id db1 8 = some { paidOrder with status := OrderStatus.refunded } :=
  c4_refund_only_paid.2.2.2 dbRefund 8 0 paidOrder spender pkg10
    (by rfl) (by rfl) (by rfl) (by rfl)

/-- C6: the grant / clamped-deduction round trip.  Starting from a
non-negative balance `b`, granting `k ≥ 1`, performing `k2` successful
reservations (`consumeN`, iterated `reserve_bal`), then clamp-deducting `k`
yields `max 0 (b − k2)`, and exactly `b` when nothing was consumed. -/
theorem c6_grant_deduct_roundtrip :
    ∀ (b k : Int) (k2 : Nat) (c : Int), 0 ≤ b → 1 ≤ k →
      consumeN (b + k) k2 = some c →
      deduct_clamped c k = max 0 (b - (k2 : Int)) ∧
        (k2 = 0 → deduct_clamped c k = b) := by
  have hcons : ∀ (n : Nat) (bal c : Int), consumeN bal n = some c → c = bal - n := by
    intro n
    induction n with
    | zero =>
        intro bal c h
        simp [consumeN] at h
        omega
    | succ m ih =>
        intro bal c h
        rw [consumeN] at h
        by_cases hb : bal ≤ 0
        · simp [reserve_bal, hb] at h
        · simp only [reserve_bal, if_neg hb] at h
          have := ih (bal - 1) c (by simpa using h)
          push_cast
          omega
  intro b k k2 c hb hk h
  have hc : c = b + k - k2 := hcons k2 (b + k) c h
  constructor
  · rw [deduct_clamped, max_def]
    split <;> split <;> omega
  · intro h0
    subst h0
    rw [deduct_clamped]
    simp at hc
    split <;> omega

/-- C6 witness: balance 5, grant 3, consume 2, clamp-deduct 3 gives
`max 0 (5 − 2) = 3`. -/
theorem c6_grant_deduct_roundtrip_witness :
    consumeN (5 + 3) 2 = some 6 ∧
    deduct_clamped 6 3 = max 0 ((5 : Int) - (2 : Nat)) ∧
    ((2 : Nat) = 0 → deduct_clamped 6 3 = 5) := by
  refine ⟨by decide, ?_⟩
  have := c6_grant_deduct_roundtrip 5 3 2 6 (by decide) (by decide) (by decide)
  simpa using this

/-- Updating users by a telegram-id-preserving map keeps telegram ids
pairwise distinct. -/
theorem distinctTids_map (db : Db) (g : User → User)
    (hg : ∀ u, (g u).telegram_id = u.telegram_id) (h : DistinctTids db) :
    DistinctTids { db with users := db.users.map g } := by
  refine List.Pairwise.map g ?_ h
  intro a b hab
  rw [hg, hg]
  exact hab

/-- Every Reservation Guard operation preserves the telegram-id
uniqueness constraint. -/
theorem applyBalanceOp_distinct (db : Db) (op : BalanceOp) (h : DistinctTids db) :
    DistinctTids (applyBalanceOp db op) := by
  cases op with
  | reserve tid =>
      rw [applyBalanceOp, check_and_reserve_balance]
      cases hu : getUserByTid db tid with
      | none => exact h
      | some u =>
          by_cases hb : u.images_remaining ≤ 0
          · simp only [if_pos hb]
            exact h
          · simp only [if_neg hb]
            exact distinctTids_map db _ (fun v => by split <;> rfl) h
  | rollback tid =>
      rw [applyBalanceOp, rollback_balance]
      cases hu : getUserByTid db tid with
      | none => exact h
      | some u => exact distinctTids_map db _ (fun v => by split <;> rfl) h
  | grant uid amount =>
      rw [applyBalanceOp, update_user_images_count, updateUserById]
      exact distinctTids_map db _ (fun v => by split <;> rfl) h

/-- Every Reservation Guard operation preserves non-negativity of all
balances, given the uniqueness constraint: `reserve` only decrements a
balance it has checked to be positive, `rollback` increments, `grant` adds
a non-negative amount. -/
theorem applyBalanceOp_nonneg (db : Db) (op : BalanceOp)
    (hd : DistinctTids db) (h : NonnegBalances db) :
    NonnegBalances (applyBalanceOp db op) := by
  cases op with
  | reserve tid =>
      rw [applyBalanceOp, check_and_reserve_balance]
      cases hu : getUserByTid db tid with
      | none => exact h
      | some u =>
          by_cases hb : u.images_remaining ≤ 0
          · simp only [if_pos hb]
            exact h
          · simp only [if_neg hb]
            intro v hv
            simp only [updateUserByTid, List.mem_map] at hv
            rcases hv with ⟨w, hw, hvw⟩
            by_cases hwt : w.telegram_id = tid
            · have hwu : w = u :=
                find?_unique_mem User.telegram_id tid db.users hd u
                  (by simpa [getUserByTid] using hu) w hw hwt
              subst hwu
              rw [← hvw]
              simp only [if_pos hwt]
              omega
            · rw [← hvw]
              simp only [if_neg hwt]
              exact h w hw
  | rollback tid =>
      rw [applyBalanceOp, rollback_balance]
      cases hu : getUserByTid db tid with
      | none => exact h
      | some u =>
          intro v hv
          simp only [updateUserByTid, List.mem_map] at hv
          rcases hv with ⟨w, hw, hvw⟩
          rw [← hvw]
          split
          · have := h w hw
            simp only []
            omega
          · exact h w hw
  | grant uid amount =>
      rw [applyBalanceOp, update_user_images_count, updateUserById]
      intro v hv
      simp only [List.mem_map] at hv
      rcases hv with ⟨w, hw, hvw⟩
      rw [← hvw]
      split
      · have := h w hw
        simp only []
        omega
      · exact h w hw

/-- C2: `check_and_reserve_balance` returns `False` with no state change
when the user is absent or their balance is not positive, decrements by
exactly 1 on success, and — together with `rollback_balance` and
non-negative grants — never drives any balance negative over any sequence
of operations. -/
theorem c2_reserve_never_negative :
    (∀ db tid, getUserByTid db tid = none →
        check_and_reserve_balance db tid = ((false, false), db)) ∧
    (∀ db tid u, getUserByTid db tid = some u → u.images_remaining ≤ 0 →
        check_and_reserve_balance db tid = ((false, false), db)) ∧
    (∀ db tid u, getUserByTid db tid = some u → 0 < u.images_remaining →
        (check_and_reserve_balance db tid).1 = (true, false) ∧
        getUserByTid (check_and_reserve_balance db tid).2 tid =
          some { u with images_remaining := u.images_remaining - 1 }) ∧
    (∀ ops db, DistinctTids db → NonnegBalances db →
        NonnegBalances (applyBalanceOps db ops)) := by
  refine ⟨?_, ?_, ?_, ?_⟩
  · intro db tid h
    simp [check_and_reserve_balance, h]
  · intro db tid u h hb
    simp [check_and_reserve_balance, h, hb]
  · intro db tid u h hb
    have htid : u.telegram_id = tid :=
      key_of_find? User.telegram_id tid db.users u (by simpa [getUserByTid] using h)
    constructor
    · simp only [check_and_reserve_balance, h]
      rw [if_neg (by omega)]
    · rw [show (check_and_reserve_balance db tid).2 =
          updateUserByTid db tid (fun v => { v with images_remaining := v.images_remaining - 1 })
          from by
            simp only [check_and_reserve_balance, h]
            rw [if_neg (by omega)]]
      rw [getUserByTid_update db tid tid
        (fun v => { v with images_remaining := v.images_remaining - 1 }) (fun _ => rfl), h]
      simp [htid]
  · intro ops
    induction ops with
    | nil => intro db _ h; exact h
    | cons op t ih =>
        intro db hd h
        rw [applyBalanceOps, List.foldl_cons]
        exact ih (applyBalanceOp db op)
          (applyBalanceOp_distinct db op hd) (applyBalanceOp_nonneg db op hd h)

/-- C2 witness: Scenario A (reserve at balance 0 refuses and leaves the
state unchanged) and a concrete operation sequence keeping balances
non-negative. -/
theorem c2_reserve_never_negative_witness :
    check_and_reserve_balance dbPending 11 = ((false, false), dbPending) ∧
    NonnegBalances (applyBalanceOps dbPending
      [BalanceOp.reserve 11, BalanceOp.grant 1 3, BalanceOp.reserve 11,
        BalanceOp.rollback 11, BalanceOp.reserve 22]) := by
  constructor
  · exact c2_reserve_never_negative.2.1 dbPending 11 buyer (by rfl) (by decide)
  · exact c2_reserve_never_negative.2.2.2
      [BalanceOp.reserve 11, BalanceOp.grant 1 3, BalanceOp.reserve 11,
        BalanceOp.rollback 11, BalanceOp.reserve 22] dbPending
      (by unfold DistinctTids; decide) (by unfold NonnegBalances; decide)

/-- The success branch of reconciliation only rewrites the order rows
through the status/`paid_at` update, whatever the referral branch does. -/
theorem mark_order_paid_apply_orders (percent now : Nat) (db : Db) (invoice : String)
    (o : Order) (u : User) (p : Package) :
    (mark_order_paid_apply percent now db invoice o u p).orders =
      (updateOrderByInvoice db invoice
        (fun v => { v with status := OrderStatus.paid, paid_at := some now })).orders := by
  rcases hu : u.referred_by_id with _ | rid
  · simp only [mark_order_paid_apply, hu]
    rfl
  · simp only [mark_order_paid_apply, hu]
    split
    · rfl
    · rfl

/-- After a successful reconciliation, the order found under the invoice id
is the paid version of the order found before. -/
theorem get_order_after_mark (percent now : Nat) (db : Db) (invoice : String)
    (o : Order) (u : User) (p : Package) (o0 : Order)
    (hfind : get_order_by_invoice_id db invoice = some o0) :
    get_order_by_invoice_id (mark_order_paid_apply percent now db invoice o u p) invoice =
      some { o0 with status := OrderStatus.paid, paid_at := some now } := by
  have hkey : o0.invoice_id = invoice :=
    key_of_find? Order.invoice_id invoice db.orders o0
      (by simpa [get_order_by_invoice_id] using hfind)
  have h1 : get_order_by_invoice_id (mark_order_paid_apply percent now db invoice o u p)
      invoice = get_order_by_invoice_id (updateOrderByInvoice db invoice
        (fun v => { v with status := OrderStatus.paid, paid_at := some now })) invoice := by
    unfold get_order_by_invoice_id
    rw [mark_order_paid_apply_orders]
  rw [h1, getOrderByInvoice_update db invoice invoice
    (fun v => { v with status := OrderStatus.paid, paid_at := some now }) (fun _ => rfl), hfind]
  simp [hkey]

/-- C1: the paid guard of Reconciliation is the idempotence defence — an
absent or already-paid order yields `None` with no state change, and a
second reconciliation of an invoice that already succeeded yields `None` with no
state change (no credits, no reward row). -/
theorem c1_reconciliation_idempotent :
    (∀ percent now db invoice,
        get_order_by_invoice_id db invoice = none ∨
          (∃ o, get_order_by_invoice_id db invoice = some o ∧ o.status = OrderStatus.paid) →
        mark_order_paid percent now db invoice = some (none, db)) ∧
    (∀ percent now percent2 now2 db invoice o db1,
        mark_order_paid percent now db invoice = some (some o, db1) →
        mark_order_paid percent2 now2 db1 invoice = some (none, db1)) := by
  constructor
  · intro percent now db invoice h
    rcases h with h | ⟨o, ho, hst⟩
    · simp [mark_order_paid, h]
    · simp [mark_order_paid, ho, hst]
  · intro percent now percent2 now2 db invoice o db1 h
    cases hfind : get_order_by_invoice_id db invoice with
    | none => simp [mark_order_paid, hfind] at h
    | some o0 =>
        by_cases hst : o0.status = OrderStatus.paid
        · simp [mark_order_paid, hfind, hst] at h
        · simp only [mark_order_paid, hfind] at h
          rw [if_neg hst] at h
          rcases hu : getUserById db o0.user_id with _ | u
          · rcases hp : getPackageById db o0.package_id with _ | p
            · rw [hu, hp] at h; simp at h
            · rw [hu, hp] at h; simp at h
          · rcases hp : getPackageById db o0.package_id with _ | p
            · rw [hu, hp] at h; simp at h
            · rw [hu, hp] at h
              simp only [Option.some.injEq, Prod.mk.injEq] at h
              obtain ⟨-, hdb⟩ := h
              subst hdb
              simp [mark_order_paid,
                get_order_after_mark percent now db invoice o0 u p o0 hfind]

/-- C1 witness: reconciling the pending sample order succeeds, and the
immediate second reconciliation of the same invoice is a silent no-op. -/
theorem c1_reconciliation_idempotent_witness :
    mark_order_paid 10 77 (mark_order_paid_apply 10 5 dbPending "inv-1" pendingOrder buyer pkg10)
        "inv-1" =
      some (none, mark_order_paid_apply 10 5 dbPending "inv-1" pendingOrder buyer pkg10) :=
  c1_reconciliation_idempotent.2 10 5 10 77 dbPending "inv-1"
    { pendingOrder with status := OrderStatus.paid, paid_at := some 5 }
    (mark_order_paid_apply 10 5 dbPending "inv-1" pendingOrder buyer pkg10) (by rfl)

/-- `getUserById` ignores the rewards column. -/
theorem getUserById_rewards_cast (X : Db) (rws : List ReferralReward) (j : Nat) :
    getUserById { X with rewards := rws } j = getUserById X j := rfl

/-- Success-branch shape, no referrer: only the order row and the buyer's
balance change. -/
theorem mark_apply_none (percent now : Nat) (db : Db) (invoice : String)
    (o : Order) (u : User) (p : Package) (hnone : u.referred_by_id = none) :
    mark_order_paid_apply percent now db invoice o u p =
      updateUserById (updateOrderByInvoice db invoice
          (fun v => { v with status := OrderStatus.paid, paid_at := some now })) u.id
        (fun v => { v with images_remaining := v.images_remaining + p.photoshoots_count }) := by
  delta mark_order_paid_apply
  rw [hnone]

/-- Success-branch shape, referrer present with positive reward: the order
row, the buyer's balance, and then `add_referral_reward`. -/
theorem mark_apply_some_pos (percent now : Nat) (db : Db) (invoice : String)
    (o : Order) (u : User) (p : Package) (rid : Nat)
    (hrid : u.referred_by_id = some rid)
    (hpos : 0 < p.photoshoots_count * percent / 100) :
    mark_order_paid_apply percent now db invoice o u p =
      add_referral_reward
        (updateUserById (updateOrderByInvoice db invoice
            (fun v => { v with status := OrderStatus.paid, paid_at := some now })) u.id
          (fun v => { v with images_remaining := v.images_remaining + p.photoshoots_count }))
        rid u.id "referral_purchase" (p.photoshoots_count * percent / 100) (some o.id) := by
  delta mark_order_paid_apply
  rw [hrid]
  show (if p.photoshoots_count * percent / 100 > 0 then
      add_referral_reward
        (updateUserById (updateOrderByInvoice db invoice
            (fun v => { v with status := OrderStatus.paid, paid_at := some now })) u.id
          (fun v => { v with images_remaining := v.images_remaining + p.photoshoots_count }))
        rid u.id "referral_purchase" (p.photoshoots_count * percent / 100) (some o.id)
    else updateUserById (updateOrderByInvoice db invoice
            (fun v => { v with status := OrderStatus.paid, paid_at := some now })) u.id
          (fun v => { v with images_remaining := v.images_remaining + p.photoshoots_count })) = _
  rw [if_pos hpos]

/-- Success-branch shape, referrer present with zero reward: as in the
no-referrer case, nothing referral-related is written. -/
theorem mark_apply_some_zero (percent now : Nat) (db : Db) (invoice : String)
    (o : Order) (u : User) (p : Package) (rid : Nat)
    (hrid : u.referred_by_id = some rid)
    (hzero : p.photoshoots_count * percent / 100 = 0) :
    mark_order_paid_apply percent now db invoice o u p =
      updateUserById (updateOrderByInvoice db invoice
          (fun v => { v with status := OrderStatus.paid, paid_at := some now })) u.id
        (fun v => { v with images_remaining := v.images_remaining + p.photoshoots_count }) := by
  delta mark_order_paid_apply
  rw [hrid]
  show (if p.photoshoots_count * percent / 100 > 0 then
      add_referral_reward
        (updateUserById (updateOrderByInvoice db invoice
            (fun v => { v with status := OrderStatus.paid, paid_at := some now })) u.id
          (fun v => { v with images_remaining := v.images_remaining + p.photoshoots_count }))
        rid u.id "referral_purchase" (p.photoshoots_count * percent / 100) (some o.id)
    else updateUserById (updateOrderByInvoice db invoice
            (fun v => { v with status := OrderStatus.paid, paid_at := some now })) u.id
          (fun v => { v with images_remaining := v.images_remaining + p.photoshoots_count })) = _
  rw [if_neg (by omega)]

/-- C3: a successful reconciliation sets `status = paid` and `paid_at`,
adds exactly the package's credit amount to the order's user, and — when
the user has a referrer — computes `floor(credits * percent / 100)`,
granting it to the referrer with exactly one appended `ReferralReward` row
of type `referral_purchase` tied to this order when it is positive, and
touching neither referrer nor reward table when it is zero. -/
theorem c3_reconciliation_grant :
    ∀ percent now db invoice o u p,
      get_order_by_invoice_id db invoice = some o →
      o.status ≠ OrderStatus.paid →
      getUserById db o.user_id = some u →
      getPackageById db o.package_id = some p →
      mark_order_paid percent now db invoice =
        some (some { o with status := OrderStatus.paid, paid_at := some now },
          mark_order_paid_apply percent now db invoice o u p) ∧
      get_order_by_invoice_id (mark_order_paid_apply percent now db invoice o u p) invoice =
        some { o with status := OrderStatus.paid, paid_at := some now } ∧
      (u.referred_by_id = none →
        (mark_order_paid_apply percent now db invoice o u p).rewards = db.rewards ∧
        getUserById (mark_order_paid_apply percent now db invoice o u p) o.user_id =
          some { u with images_remaining := u.images_remaining + p.photoshoots_count }) ∧
      (∀ rid r, u.referred_by_id = some rid → rid ≠ u.id → getUserById db rid = some r →
        (0 < p.photoshoots_count * percent / 100 →
          (mark_order_paid_apply percent now db invoice o u p).rewards = db.rewards ++
            [{ user_id := rid, referred_user_id := u.id, order_id := some o.id,
               reward_type := "referral_purchase",
               images_rewarded := p.photoshoots_count * percent / 100 }] ∧
          getUserById (mark_order_paid_apply percent now db invoice o u p) rid =
            some { r with images_remaining :=
              r.images_remaining + (p.photoshoots_count * percent / 100 : Nat) } ∧
          getUserById (mark_order_paid_apply percent now db invoice o u p) o.user_id =
            some { u with images_remaining := u.images_remaining + p.photoshoots_count }) ∧
        (p.photoshoots_count * percent / 100 = 0 →
          (mark_order_paid_apply percent now db invoice o u p).rewards = db.rewards ∧
          getUserById (mark_order_paid_apply percent now db invoice o u p) rid = some r ∧
          getUserById (mark_order_paid_apply percent now db invoice o u p) o.user_id =
            some { u with images_remaining := u.images_remaining + p.photoshoots_count })) := by
  intro percent now db invoice o u p hfind hst hu hp
  have hu_id : u.id = o.user_id :=
    key_of_find? User.id o.user_id db.users u (by simpa [getUserById] using hu)
  have husers : ∀ j, getUserById (updateUserById (updateOrderByInvoice db invoice
      (fun v => { v with status := OrderStatus.paid, paid_at := some now })) u.id
      (fun v => { v with images_remaining := v.images_remaining + p.photoshoots_count })) j =
      (getUserById db j).map
        (fun v => if v.id = u.id
          then { v with images_remaining := v.images_remaining + p.photoshoots_count }
          else v) := by
    intro j
    rw [getUserById_update _ u.id j
      (fun v => { v with images_remaining := v.images_remaining + p.photoshoots_count })
      (fun _ => rfl)]
    rfl
  refine ⟨by simp [mark_order_paid, hfind, hst, hu, hp],
    get_order_after_mark percent now db invoice o u p o hfind, ?_, ?_⟩
  · intro hnone
    rw [mark_apply_none percent now db invoice o u p hnone]
    refine ⟨rfl, ?_⟩
    rw [husers o.user_id, hu]
    simp [hu_id]
  · intro rid r hrid hne hr
    have hr_id : r.id = rid :=
      key_of_find? User.id rid db.users r (by simpa [getUserById] using hr)
    constructor
    · intro hpos
      rw [mark_apply_some_pos percent now db invoice o u p rid hrid hpos]
      refine ⟨rfl, ?_, ?_⟩
      · rw [add_referral_reward, update_user_images_count]
        rw [getUserById_rewards_cast]
        rw [getUserById_update _ rid rid
          (fun v => { v with images_remaining :=
            v.images_remaining + ((p.photoshoots_count * percent / 100 : Nat) : Int) })
          (fun _ => rfl)]
        rw [husers rid, hr]
        simp [hr_id, hne]
      · rw [add_referral_reward, update_user_images_count]
        rw [getUserById_rewards_cast]
        rw [getUserById_update _ rid o.user_id
          (fun v => { v with images_remaining :=
            v.images_remaining + ((p.photoshoots_count * percent / 100 : Nat) : Int) })
          (fun _ => rfl)]
        rw [husers o.user_id, hu]
        simp [Ne.symm hne]
    · intro hzero
      rw [mark_apply_some_zero percent now db invoice o u p rid hrid hzero]
      refine ⟨rfl, ?_, ?_⟩
      · rw [husers rid, hr]
        simp [hr_id, hne]
      · rw [husers o.user_id, hu]
        simp [hu_id]

/-- C3 witness: Scenario C — reconciling the pending 10-credit order of the
referred `buyer` with a 10 % purchase reward grants the buyer 10 credits
and the `referrer` exactly `floor(10 * 10 / 100) = 1` credit with one
`referral_purchase` reward row tied to the order. -/
theorem c3_reconciliation_grant_witness :
    mark_order_paid 10 5 dbPending "inv-1" =
      some (some { pendingOrder with status := OrderStatus.paid, paid_at := some 5 },
        mark_order_paid_apply 10 5 dbPending "inv-1" pendingOrder buyer pkg10) ∧
    (mark_order_paid_apply 10 5 dbPending "inv-1" pendingOrder buyer pkg10).rewards =
      [{ user_id := 2, referred_user_id := 1, order_id := some 7,
         reward_type := "referral_purchase", images_rewarded := 1 }] ∧
    getUserById (mark_order_paid_apply 10 5 dbPending "inv-1" pendingOrder buyer pkg10) 2 =
      some { referrer with images_remaining := 1 } ∧
    getUserById (mark_order_paid_apply 10 5 dbPending "inv-1" pendingOrder buyer pkg10) 1 =
      some { buyer with images_remaining := 10 } := by
  have h := c3_reconciliation_grant 10 5 dbPending "inv-1" pendingOrder buyer pkg10
    (by rfl) (by decide) (by rfl) (by rfl)
  have h2 := (h.2.2.2 2 referrer (by rfl) (by decide) (by rfl)).1 (by decide)
  exact ⟨h.1, by simpa using h2.1, by simpa using h2.2.1, by simpa using h2.2.2⟩

/-- Shape of the `/start` referral block when it fires: the code matches a
referrer, the user has no referrer link, and the code is not the user's own
telegram id. -/
theorem cmd_start_shape (reward_start : Nat) (db : Db) (user : User) (code : String)
    (r : User) (hnone : user.referred_by_id = none)
    (hcode : toString user.telegram_id ≠ code)
    (hfind : db.users.find? (fun v => v.referral_code = some code) = some r) :
    cmd_start_referral reward_start db user (some code) =
      updateUserById (updateUserById db user.id
          (fun v => { v with referred_by_id := some r.id })) r.id
        (fun v => { v with total_referrals := v.total_referrals + 1, images_remaining := v.images_remaining + reward_start }) := by
  simp only [cmd_start_referral]
  rw [if_pos ⟨hnone, hcode⟩, hfind]

/-- C9 counterexample: on a concrete state where the `/start` referral
block fires (fresh `starter`, code "ABC123" owned by `referrer`), the
referrer is granted the flat reward and the counter increments, but NO
`ReferralReward` row of type `referral_start` is appended — the rewards
table stays empty, refuting the claim's "appends one ReferralReward row". -/
theorem c9_counterexample :
    (cmd_start_referral 1 dbStart starter (some "ABC123")).rewards = [] ∧
    getUserById (cmd_start_referral 1 dbStart starter (some "ABC123")) 2 =
      some { referrer with total_referrals := 2, images_remaining := 1 } ∧
    getUserById (cmd_start_referral 1 dbStart starter (some "ABC123")) 5 =
      some { starter with referred_by_id := some 2 } := by
  refine ⟨rfl, rfl, rfl⟩

/-- C9 (amended): the flat `referral_start` grant fires at most once per
referred user — guarded by the referrer link not being set — incrementing
the referrer's counter by 1 and adding `REFERRAL_REWARD_START` directly to
the referrer's balance; no `ReferralReward` row is appended by this path. -/
theorem c9_referral_start_once_no_row :
    (∀ reward_start db user rid code, user.referred_by_id = some rid →
        cmd_start_referral reward_start db user code = db) ∧
    (∀ reward_start db user, cmd_start_referral reward_start db user none = db) ∧
    (∀ reward_start db user code r,
        user.referred_by_id = none → toString user.telegram_id ≠ code →
        db.users.find? (fun v => v.referral_code = some code) = some r →
        r.id ≠ user.id → getUserById db user.id = some user →
        (cmd_start_referral reward_start db user (some code)).rewards = db.rewards ∧
        getUserById (cmd_start_referral reward_start db user (some code)) user.id =
          some { user with referred_by_id := some r.id } ∧
        (getUserById db r.id = some r →
          getUserById (cmd_start_referral reward_start db user (some code)) r.id =
            some { r with total_referrals := r.total_referrals + 1, images_remaining := r.images_remaining + reward_start })) := by
  refine ⟨?_, ?_, ?_⟩
  · intro reward_start db user rid code hrid
    cases code with
    | none => rfl
    | some c =>
        simp only [cmd_start_referral]
        rw [if_neg (by rintro ⟨h1, -⟩; rw [hrid] at h1; cases h1)]
  · intro reward_start db user
    rfl
  · intro reward_start db user code r hnone hcode hfind hne hu
    have hshape := cmd_start_shape reward_start db user code r hnone hcode hfind
    rw [hshape]
    refine ⟨rfl, ?_, ?_⟩
    · rw [getUserById_update _ r.id user.id
          (fun v => { v with total_referrals := v.total_referrals + 1, images_remaining := v.images_remaining + reward_start })
          (fun _ => rfl),
        getUserById_update _ user.id user.id
          (fun v => { v with referred_by_id := some r.id }) (fun _ => rfl), hu]
      have hid : user.id = user.id := rfl
      simp [Ne.symm hne]
    · intro hrrow
      rw [getUserById_update _ r.id r.id
          (fun v => { v with total_referrals := v.total_referrals + 1, images_remaining := v.images_remaining + reward_start })
          (fun _ => rfl),
        getUserById_update _ user.id r.id
          (fun v => { v with referred_by_id := some r.id }) (fun _ => rfl), hrrow]
      simp [hne]

/-- C9 witness: the amended theorem applied to the concrete `/start`
state. -/
theorem c9_referral_start_once_no_row_witness :
    (cmd_start_referral 3 dbStart starter (some "ABC123")).rewards = dbStart.rewards ∧
    getUserById (cmd_start_referral 3 dbStart starter (some "ABC123")) 5 =
      some { starter with referred_by_id := some 2 } ∧
    getUserById (cmd_start_referral 3 dbStart starter (some "ABC123")) 2 =
      some { referrer with total_referrals := 2, images_remaining := 3 } := by
  have h := c9_referral_start_once_no_row.2.2 3 dbStart starter "ABC123" referrer
    (by rfl) (by decide) (by rfl) (by decide) (by rfl)
  exact ⟨h.1, by simpa using h.2.1, by simpa using h.2.2 (by rfl)⟩

/-- Unpacking a non-terminal gateway response: neither a paid success nor a
cancellation. -/
theorem nonterminal_some (i : PaymentInfo) (h : isTerminal (some i) = false) :
    ¬(i.status = "succeeded" ∧ i.paid = true) ∧ ¬(i.status = "canceled") := by
  simp only [isTerminal, Bool.or_eq_false_iff, Bool.and_eq_false_iff, beq_eq_false_iff_ne,
    ne_eq] at h
  obtain ⟨h1, h2⟩ := h
  refine ⟨?_, h2⟩
  rintro ⟨hs, hp⟩
  rcases h1 with h1 | h1
  · exact h1 hs
  · rw [hp] at h1
    exact Bool.noConfusion h1

/-- One cons step of the 30-second check-time schedule. -/
theorem schedule_cons (elapsed m : Nat) :
    (List.range (m + 1)).map (fun j => elapsed + 30 * (j + 1)) =
      (elapsed + 30) :: (List.range m).map (fun j => (elapsed + 30) + 30 * (j + 1)) := by
  simp only [List.range_succ_eq_map, List.map_cons, List.map_map, Function.comp]
  rw [show elapsed + 30 * (0 + 1) = elapsed + 30 from by omega]
  refine congrArg _ (List.map_congr_left fun a _ => ?_)
  show elapsed + 30 * (a + 1 + 1) = elapsed + 30 + 30 * (a + 1)
  omega

/-- The steady-state loop with only non-terminal responses runs to the
budget and times out with no state change, checking on the 30-second
schedule. -/
theorem auto_check_loop_timeout (percent now : Nat) (pid : String)
    (responses : Nat → Option PaymentInfo) (budget : Nat) (db : Db) :
    ∀ fuel k elapsed times, budget - elapsed ≤ fuel →
      (∀ j, isTerminal (responses j) = false) →
      auto_check_loop percent now pid responses budget db k elapsed times =
        some ⟨none, db, times ++ loopSchedule budget elapsed⟩ := by
  intro fuel
  induction fuel with
  | zero =>
      intro k elapsed times hfuel hnt
      have hnb : ¬ elapsed < budget := by omega
      rw [auto_check_loop, dif_neg hnb, loopSchedule, dif_neg hnb]
      simp
  | succ m ih =>
      intro k elapsed times hfuel hnt
      by_cases hb : elapsed < budget
      · rw [auto_check_loop, dif_pos hb]
        have htail : (times ++ [elapsed + 30]) ++ loopSchedule budget (elapsed + 30) =
            times ++ loopSchedule budget elapsed := by
          conv_rhs => rw [loopSchedule, dif_pos hb]
          simp
        split
        · rw [ih (k + 1) (elapsed + 30) (times ++ [elapsed + 30]) (by omega) hnt, htail]
        · next info heq =>
            obtain ⟨h1, h2⟩ := nonterminal_some info (heq ▸ hnt _)
            rw [if_neg h1, if_neg h2,
              ih (k + 1) (elapsed + 30) (times ++ [elapsed + 30]) (by omega) hnt, htail]
      · rw [auto_check_loop, dif_neg hb, loopSchedule, dif_neg hb]
        simp

/-- The steady-state loop stops with `'succeeded'` at the first check that
reports a paid success within the budget, after processing the payment. -/
theorem auto_check_loop_success (percent now : Nat) (pid : String)
    (responses : Nat → Option PaymentInfo) (budget : Nat) (db : Db)
    (info : PaymentInfo) (b : Bool) (db1 : Db)
    (hsucc : info.status = "succeeded") (hpaid : info.paid = true)
    (hpsp : process_successful_payment percent now db pid = some (b, db1)) :
    ∀ m k elapsed times,
      (∀ j, j < m → isTerminal (responses (k + j)) = false) →
      responses (k + m) = some info →
      elapsed + 30 * m < budget →
      auto_check_loop percent now pid responses budget db k elapsed times =
        some ⟨some "succeeded", db1,
          times ++ (List.range (m + 1)).map (fun j => elapsed + 30 * (j + 1))⟩ := by
  intro m
  induction m with
  | zero =>
      intro k elapsed times hpre hm hbud
      rw [Nat.add_zero] at hm
      rw [auto_check_loop, dif_pos (by omega)]
      split
      · next heq => rw [heq] at hm; cases hm
      · next info2 heq =>
          rw [heq] at hm
          have h3 := Option.some.inj hm
          subst h3
          rw [if_pos ⟨hsucc, hpaid⟩, hpsp]; rfl
  | succ n ih =>
      intro k elapsed times hpre hm hbud
      have hshift : ∀ j, j < n → isTerminal (responses (k + 1 + j)) = false := by
        intro j hj
        have := hpre (j + 1) (by omega)
        rwa [show k + (j + 1) = k + 1 + j from by omega] at this
      have hm2 : responses (k + 1 + n) = some info := by
        rwa [show k + 1 + n = k + (n + 1) from by omega]
      have h0 : isTerminal (responses k) = false := by
        have := hpre 0 (by omega)
        rwa [Nat.add_zero] at this
      have htimes : (times ++ [elapsed + 30]) ++
          (List.range (n + 1)).map (fun j => (elapsed + 30) + 30 * (j + 1)) =
          times ++ (List.range (n + 1 + 1)).map (fun j => elapsed + 30 * (j + 1)) := by
        rw [schedule_cons elapsed (n + 1)]
        simp
      rw [auto_check_loop, dif_pos (by omega)]
      split
      · rw [ih (k + 1) (elapsed + 30) (times ++ [elapsed + 30]) hshift hm2 (by omega), htimes]
      · next info2 heq =>
          obtain ⟨h1, h2⟩ := nonterminal_some info2 (heq ▸ h0)
          rw [if_neg h1, if_neg h2,
            ih (k + 1) (elapsed + 30) (times ++ [elapsed + 30]) hshift hm2 (by omega), htimes]

/-- The steady-state loop stops with `'canceled'` and no state change at
the first check that reports cancellation within the budget. -/
theorem auto_check_loop_canceled (percent now : Nat) (pid : String)
    (responses : Nat → Option PaymentInfo) (budget : Nat) (db : Db)
    (info : PaymentInfo) (hcanc : info.status = "canceled") :
    ∀ m k elapsed times,
      (∀ j, j < m → isTerminal (responses (k + j)) = false) →
      responses (k + m) = some info →
      elapsed + 30 * m < budget →
      auto_check_loop percent now pid responses budget db k elapsed times =
        some ⟨some "canceled", db,
          times ++ (List.range (m + 1)).map (fun j => elapsed + 30 * (j + 1))⟩ := by
  intro m
  induction m with
  | zero =>
      intro k elapsed times hpre hm hbud
      rw [Nat.add_zero] at hm
      rw [auto_check_loop, dif_pos (by omega)]
      split
      · next heq => rw [heq] at hm; cases hm
      · next info2 heq =>
          rw [heq] at hm
          have h3 := Option.some.inj hm
          subst h3
          rw [if_neg (by rintro ⟨hs, -⟩; rw [hcanc] at hs; exact absurd hs (by decide)),
            if_pos hcanc]
          rw [show (List.range (0 + 1)).map (fun j => elapsed + 30 * (j + 1)) =
            [elapsed + 30] from by
              rw [show (0 : Nat) + 1 = 1 from rfl, List.range_succ]
              simp]
  | succ n ih =>
      intro k elapsed times hpre hm hbud
      have hshift : ∀ j, j < n → isTerminal (responses (k + 1 + j)) = false := by
        intro j hj
        have := hpre (j + 1) (by omega)
        rwa [show k + (j + 1) = k + 1 + j from by omega] at this
      have hm2 : responses (k + 1 + n) = some info := by
        rwa [show k + 1 + n = k + (n + 1) from by omega]
      have h0 : isTerminal (responses k) = false := by
        have := hpre 0 (by omega)
        rwa [Nat.add_zero] at this
      have htimes : (times ++ [elapsed + 30]) ++
          (List.range (n + 1)).map (fun j => (elapsed + 30) + 30 * (j + 1)) =
          times ++ (List.range (n + 1 + 1)).map (fun j => elapsed + 30 * (j + 1)) := by
        rw [schedule_cons elapsed (n + 1)]
        simp
      rw [auto_check_loop, dif_pos (by omega)]
      split
      · rw [ih (k + 1) (elapsed + 30) (times ++ [elapsed + 30]) hshift hm2 (by omega), htimes]
      · next info2 heq =>
          obtain ⟨h1, h2⟩ := nonterminal_some info2 (heq ▸ h0)
          rw [if_neg h1, if_neg h2,
            ih (k + 1) (elapsed + 30) (times ++ [elapsed + 30]) hshift hm2 (by omega), htimes]

/-- The check-time list of a run that stops at check `m ≥ 3` is a prefix of
the default schedule. -/
theorem take_schedule (m : Nat) (h3 : 3 ≤ m) (h18 : m < 18) :
    ([60, 90, 150] : List Nat) ++
        (List.range (m - 3 + 1)).map (fun j => 150 + 30 * (j + 1)) =
      defaultSchedule.take (m + 1) := by
  interval_cases m <;> rfl

/-- The evaluated 30-second tail of the default 10-minute schedule. -/
theorem loopSchedule_default :
    loopSchedule 600 150 =
      [180, 210, 240, 270, 300, 330, 360, 390, 420, 450, 480, 510, 540, 570, 600] := by
  simp [loopSchedule]

/-- When the first three gateway checks are non-terminal, the initial
60 s / 30 s / 60 s phase of a 10-minute `auto_check_payment` run falls
through to the 30-second loop at 150 s elapsed. -/
theorem auto_check_go_start (percent now : Nat) (pid : String)
    (responses : Nat → Option PaymentInfo) (db : Db)
    (h0 : isTerminal (responses 0) = false)
    (h1 : isTerminal (responses 1) = false)
    (h2 : isTerminal (responses 2) = false) :
    auto_check_payment percent now db pid responses 10 =
      auto_check_loop percent now pid responses 600 db 3 150 [60, 90, 150] := by
  simp only [auto_check_payment, auto_check_go]
  norm_num
  split
  · split
    · split
      · rfl
      · next i2 he2 =>
          obtain ⟨a2, b2⟩ := nonterminal_some i2 (he2 ▸ h2)
          rw [if_neg a2, if_neg b2]
    · next i1 he1 =>
        obtain ⟨a1, b1⟩ := nonterminal_some i1 (he1 ▸ h1)
        rw [if_neg a1, if_neg b1]
        split
        · rfl
        · next i2 he2 =>
            obtain ⟨a2, b2⟩ := nonterminal_some i2 (he2 ▸ h2)
            rw [if_neg a2, if_neg b2]
  · next i0 he0 =>
      obtain ⟨a0, b0⟩ := nonterminal_some i0 (he0 ▸ h0)
      rw [if_neg a0, if_neg b0]
      split
      · split
        · rfl
        · next i2 he2 =>
            obtain ⟨a2, b2⟩ := nonterminal_some i2 (he2 ▸ h2)
            rw [if_neg a2, if_neg b2]
      · next i1 he1 =>
          obtain ⟨a1, b1⟩ := nonterminal_some i1 (he1 ▸ h1)
          rw [if_neg a1, if_neg b1]
          split
          · rfl
          · next i2 he2 =>
              obtain ⟨a2, b2⟩ := nonterminal_some i2 (he2 ▸ h2)
              rw [if_neg a2, if_neg b2]

/-- Timeout behaviour of a default 10-minute run: all checks non-terminal
means the sentinel `none`, no state change, and the full check schedule. -/
theorem auto_check_payment_timeout_default (percent now : Nat) (db : Db) (pid : String)
    (responses : Nat → Option PaymentInfo)
    (hnt : ∀ j, isTerminal (responses j) = false) :
    auto_check_payment percent now db pid responses 10 = some ⟨none, db, defaultSchedule⟩ := by
  rw [auto_check_go_start percent now pid responses db (hnt 0) (hnt 1) (hnt 2),
    auto_check_loop_timeout percent now pid responses 600 db 600 3 150 [60, 90, 150]
      (by omega) hnt,
    loopSchedule_default]
  rfl

/-- Success behaviour of a default 10-minute run: the first terminal check
`m` reports a paid success, the scheduler processes the payment and stops
with `'succeeded'` after `m + 1` checks. -/
theorem auto_check_payment_success_default (percent now : Nat) (db : Db) (pid : String)
    (responses : Nat → Option PaymentInfo) (m : Nat) (info : PaymentInfo)
    (b : Bool) (db1 : Db) (h18 : m < 18)
    (hpre : ∀ j, j < m → isTerminal (responses j) = false)
    (hm : responses m = some info)
    (hsucc : info.status = "succeeded") (hpaid : info.paid = true)
    (hpsp : process_successful_payment percent now db pid = some (b, db1)) :
    auto_check_payment percent now db pid responses 10 =
      some ⟨some "succeeded", db1, defaultSchedule.take (m + 1)⟩ := by
  rcases Nat.lt_or_ge m 3 with hlt | hge
  · interval_cases m
    · simp only [auto_check_payment, auto_check_go]
      norm_num
      split
      · next heq => rw [heq] at hm; cases hm
      · next i0 he0 =>
          rw [he0] at hm
          have h3 := Option.some.inj hm
          subst h3
          rw [if_pos ⟨hsucc, hpaid⟩, hpsp]; rfl
    · have h0 := hpre 0 (by omega)
      simp only [auto_check_payment, auto_check_go]
      norm_num
      split
      · split
        · next heq => rw [heq] at hm; cases hm
        · next i1 he1 =>
            rw [he1] at hm
            have h3 := Option.some.inj hm
            subst h3
            rw [if_pos ⟨hsucc, hpaid⟩, hpsp]; rfl
      · next i0 he0 =>
          obtain ⟨a0, b0⟩ := nonterminal_some i0 (he0 ▸ h0)
          rw [if_neg a0, if_neg b0]
          split
          · next heq => rw [heq] at hm; cases hm
          · next i1 he1 =>
              rw [he1] at hm
              have h3 := Option.some.inj hm
              subst h3
              rw [if_pos ⟨hsucc, hpaid⟩, hpsp]; rfl
    · have h0 := hpre 0 (by omega)
      have h1 := hpre 1 (by omega)
      simp only [auto_check_payment, auto_check_go]
      norm_num
      split
      · split
        · split
          · next heq => rw [heq] at hm; cases hm
          · next i2 he2 =>
              rw [he2] at hm
              have h3 := Option.some.inj hm
              subst h3
              rw [if_pos ⟨hsucc, hpaid⟩, hpsp]; rfl
        · next i1 he1 =>
            obtain ⟨a1, b1⟩ := nonterminal_some i1 (he1 ▸ h1)
            rw [if_neg a1, if_neg b1]
            split
            · next heq => rw [heq] at hm; cases hm
            · next i2 he2 =>
                rw [he2] at hm
                have h3 := Option.some.inj hm
                subst h3
                rw [if_pos ⟨hsucc, hpaid⟩, hpsp]; rfl
      · next i0 he0 =>
          obtain ⟨a0, b0⟩ := nonterminal_some i0 (he0 ▸ h0)
          rw [if_neg a0, if_neg b0]
          split
          · split
            · next heq => rw [heq] at hm; cases hm
            · next i2 he2 =>
                rw [he2] at hm
                have h3 := Option.some.inj hm
                subst h3
                rw [if_pos ⟨hsucc, hpaid⟩, hpsp]; rfl
          · next i1 he1 =>
              obtain ⟨a1, b1⟩ := nonterminal_some i1 (he1 ▸ h1)
              rw [if_neg a1, if_neg b1]
              split
              · next heq => rw [heq] at hm; cases hm
              · next i2 he2 =>
                  rw [he2] at hm
                  have h3 := Option.some.inj hm
                  subst h3
                  rw [if_pos ⟨hsucc, hpaid⟩, hpsp]; rfl
  · rw [auto_check_go_start percent now pid responses db
      (hpre 0 (by omega)) (hpre 1 (by omega)) (hpre 2 (by omega))]
    have hm2 : responses (3 + (m - 3)) = some info := by
      rwa [show 3 + (m - 3) = m from by omega]
    rw [auto_check_loop_success percent now pid responses 600 db info b db1 hsucc hpaid hpsp
      (m - 3) 3 150 [60, 90, 150] (fun j hj => hpre (3 + j) (by omega)) hm2 (by omega)]
    rw [take_schedule m hge h18]

/-- Cancellation behaviour of a default 10-minute run: the first terminal
check `m` reports cancellation, the scheduler stops with `'canceled'` and
no state change after `m + 1` checks. -/
theorem auto_check_payment_canceled_default (percent now : Nat) (db : Db) (pid : String)
    (responses : Nat → Option PaymentInfo) (m : Nat) (info : PaymentInfo)
    (h18 : m < 18)
    (hpre : ∀ j, j < m → isTerminal (responses j) = false)
    (hm : responses m = some info)
    (hcanc : info.status = "canceled") :
    auto_check_payment percent now db pid responses 10 =
      some ⟨some "canceled", db, defaultSchedule.take (m + 1)⟩ := by
  have hnotsucc : ¬(info.status = "succeeded" ∧ info.paid = true) := by
    rintro ⟨hs, -⟩
    rw [hcanc] at hs
    exact absurd hs (by decide)
  rcases Nat.lt_or_ge m 3 with hlt | hge
  · interval_cases m
    · simp only [auto_check_payment, auto_check_go]
      norm_num
      split
      · next heq => rw [heq] at hm; cases hm
      · next i0 he0 =>
          rw [he0] at hm
          have h3 := Option.some.inj hm
          subst h3
          rw [if_neg hnotsucc, if_pos hcanc]; rfl
    · have h0 := hpre 0 (by omega)
      simp only [auto_check_payment, auto_check_go]
      norm_num
      split
      · split
        · next heq => rw [heq] at hm; cases hm
        · next i1 he1 =>
            rw [he1] at hm
            have h3 := Option.some.inj hm
            subst h3
            rw [if_neg hnotsucc, if_pos hcanc]; rfl
      · next i0 he0 =>
          obtain ⟨a0, b0⟩ := nonterminal_some i0 (he0 ▸ h0)
          rw [if_neg a0, if_neg b0]
          split
          · next heq => rw [heq] at hm; cases hm
          · next i1 he1 =>
              rw [he1] at hm
              have h3 := Option.some.inj hm
              subst h3
              rw [if_neg hnotsucc, if_pos hcanc]; rfl
    · have h0 := hpre 0 (by omega)
      have h1 := hpre 1 (by omega)
      simp only [auto_check_payment, auto_check_go]
      norm_num
      split
      · split
        · split
          · next heq => rw [heq] at hm; cases hm
          · next i2 he2 =>
              rw [he2] at hm
              have h3 := Option.some.inj hm
              subst h3
              rw [if_neg hnotsucc, if_pos hcanc]; rfl
        · next i1 he1 =>
            obtain ⟨a1, b1⟩ := nonterminal_some i1 (he1 ▸ h1)
            rw [if_neg a1, if_neg b1]
            split
            · next heq => rw [heq] at hm; cases hm
            · next i2 he2 =>
                rw [he2] at hm
                have h3 := Option.some.inj hm
                subst h3
                rw [if_neg hnotsucc, if_pos hcanc]; rfl
      · next i0 he0 =>
          obtain ⟨a0, b0⟩ := nonterminal_some i0 (he0 ▸ h0)
          rw [if_neg a0, if_neg b0]
          split
          · split
            · next heq => rw [heq] at hm; cases hm
            · next i2 he2 =>
                rw [he2] at hm
                have h3 := Option.some.inj hm
                subst h3
                rw [if_neg hnotsucc, if_pos hcanc]; rfl
          · next i1 he1 =>
              obtain ⟨a1, b1⟩ := nonterminal_some i1 (he1 ▸ h1)
              rw [if_neg a1, if_neg b1]
              split
              · next heq => rw [heq] at hm; cases hm
              · next i2 he2 =>
                  rw [he2] at hm
                  have h3 := Option.some.inj hm
                  subst h3
                  rw [if_neg hnotsucc, if_pos hcanc]; rfl
  · rw [auto_check_go_start percent now pid responses db
      (hpre 0 (by omega)) (hpre 1 (by omega)) (hpre 2 (by omega))]
    have hm2 : responses (3 + (m - 3)) = some info := by
      rwa [show 3 + (m - 3) = m from by omega]
    rw [auto_check_loop_canceled percent now pid responses 600 db info hcanc
      (m - 3) 3 150 [60, 90, 150] (fun j hj => hpre (3 + j) (by omega)) hm2 (by omega)]
    rw [take_schedule m hge h18]

/-- C7: the Active Poll Scheduler checks at 60 s, 90 s, 150 s and then
every 30 s up to the default 10-minute budget; it stops with `'succeeded'`
(after invoking Reconciliation) at the first paid success, stops with
`'canceled'` on cancellation, and when the budget elapses with no terminal
status it returns the timeout sentinel `None` with no crediting performed
(the state is unchanged). -/
theorem c7_active_poll_scheduler :
    (∀ percent now db pid responses,
        (∀ j, isTerminal (responses j) = false) →
        auto_check_payment percent now db pid responses 10 =
          some ⟨none, db, defaultSchedule⟩) ∧
    (∀ percent now db pid responses m info b db1, m < 18 →
        (∀ j, j < m → isTerminal (responses j) = false) →
        responses m = some info → info.status = "succeeded" → info.paid = true →
        process_successful_payment percent now db pid = some (b, db1) →
        auto_check_payment percent now db pid responses 10 =
          some ⟨some "succeeded", db1, defaultSchedule.take (m + 1)⟩) ∧
    (∀ percent now db pid responses m info, m < 18 →
        (∀ j, j < m → isTerminal (responses j) = false) →
        responses m = some info → info.status = "canceled" →
        auto_check_payment percent now db pid responses 10 =
          some ⟨some "canceled", db, defaultSchedule.take (m + 1)⟩) :=
  ⟨fun percent now db pid responses hnt =>
      auto_check_payment_timeout_default percent now db pid responses hnt,
   fun percent now db pid responses m info b db1 h18 hpre hm hsucc hpaid hpsp =>
      auto_check_payment_success_default percent now db pid responses m info b db1
        h18 hpre hm hsucc hpaid hpsp,
   fun percent now db pid responses m info h18 hpre hm hcanc =>
      auto_check_payment_canceled_default percent now db pid responses m info
        h18 hpre hm hcanc⟩

/-- C7 witness: a run that never observes a terminal status times out with
the full schedule and no state change; a first-check paid success stops at
60 s having reconciled the pending order; a first-check cancellation stops
at 60 s unchanged. -/
theorem c7_active_poll_scheduler_witness :
    auto_check_payment 10 5 dbPending "inv-1" (fun _ => none) 10 =
      some ⟨none, dbPending, defaultSchedule⟩ ∧
    auto_check_payment 10 5 dbPending "inv-1"
        (fun _ => some { payment_id := "inv-1", status := "succeeded", paid := true }) 10 =
      some ⟨some "succeeded",
        mark_order_paid_apply 10 5 dbPending "inv-1" pendingOrder buyer pkg10,
        defaultSchedule.take 1⟩ ∧
    auto_check_payment 10 5 dbPending "inv-1"
        (fun _ => some { payment_id := "inv-1", status := "canceled", paid := false }) 10 =
      some ⟨some "canceled", dbPending, defaultSchedule.take 1⟩ :=
  ⟨c7_active_poll_scheduler.1 10 5 dbPending "inv-1" (fun _ => none) (fun _ => rfl),
   c7_active_poll_scheduler.2.1 10 5 dbPending "inv-1"
     (fun _ => some { payment_id := "inv-1", status := "succeeded", paid := true }) 0
     { payment_id := "inv-1", status := "succeeded", paid := true } true
     (mark_order_paid_apply 10 5 dbPending "inv-1" pendingOrder buyer pkg10)
     (by omega) (fun j hj => absurd hj (by omega)) rfl rfl rfl (by rfl),
   c7_active_poll_scheduler.2.2 10 5 dbPending "inv-1"
     (fun _ => some { payment_id := "inv-1", status := "canceled", paid := false }) 0
     { payment_id := "inv-1", status := "canceled", paid := false }
     (by omega) (fun j hj => absurd hj (by omega)) rfl rfl⟩

end SalePhotoBot
